import Mathlib

/-!
Verification of the bounding-box algebra and component composition layer of
the scarlet deblender (src/scarlet/bbox.py and src/scarlet/component.py),
as a shallow embedding: boxes become a structure of integer tuples, NumPy
arrays become shapes paired with total data functions, Python slices become
integer pairs resolved with NumPy's clamping rules, and the render layer's
aliasing behaviour is made explicit with a heap of arrays.
-/

set_option autoImplicit false

namespace Scarlet

/-- `Box` (bbox.py lines 4–29): a bounding box stored always in 3D, with a
`shape` tuple (depth, height, width) of non-negative sizes and an `origin`
tuple (z, y, x) of integers.  The constructor's 2D→3D promotion is the
separate `Box.ofShape2`. -/
structure Box where
  shape : Nat × Nat × Nat
  origin : Int × Int × Int
deriving DecidableEq

/-- `Box(shape)` on a 3-tuple with the default origin `(0, 0, 0)`. -/
def Box.ofShape3 (shape : Nat × Nat × Nat) : Box :=
  { shape := shape, origin := (0, 0, 0) }

/-- `Box(shape)` on a 2-tuple: `__init__` promotes it to `(0, *shape)` with
depth size 0 and the default origin (bbox.py lines 21–22). -/
def Box.ofShape2 (shape : Nat × Nat) : Box :=
  { shape := (0, shape.1, shape.2), origin := (0, 0, 0) }

/-- `front` property (bbox.py line 226): minimum z. -/
def Box.front (b : Box) : Int := b.origin.1

/-- `back` property (bbox.py line 244): `origin[0] + shape[0]`. -/
def Box.back (b : Box) : Int := b.origin.1 + b.shape.1

/-- `bottom` property (bbox.py line 232): minimum y. -/
def Box.bottom (b : Box) : Int := b.origin.2.1

/-- `top` property (bbox.py line 250): `origin[1] + shape[1]`. -/
def Box.top (b : Box) : Int := b.origin.2.1 + b.shape.2.1

/-- `left` property (bbox.py line 238): minimum x. -/
def Box.left (b : Box) : Int := b.origin.2.2

/-- `right` property (bbox.py line 256): `origin[2] + shape[2]`. -/
def Box.right (b : Box) : Int := b.origin.2.2 + b.shape.2.2

/-- The pair normalization `from_bounds` applies to each axis: swap the two
bounds when the second is below the first (bbox.py lines 67–72). -/
def normPair (a b : Int) : Int × Int :=
  if b < a then (b, a) else (a, b)

/-- `Box.from_bounds` (bbox.py lines 47–75): normalize each axis pair and
return `Box((back-front, top-bottom, right-left), origin=(front, bottom, left))`.
After normalization each difference is non-negative, so `Int.toNat` is exact. -/
def Box.from_bounds (front back bottom top left right : Int) : Box :=
  let fb := normPair front back
  let bt := normPair bottom top
  let lr := normPair left right
  { shape := ((fb.2 - fb.1).toNat, (bt.2 - bt.1).toNat, (lr.2 - lr.1).toNat),
    origin := (fb.1, bt.1, lr.1) }

/-- `Box.__and__` (bbox.py lines 279–302): componentwise max of lower bounds
and min of upper bounds, handed to `from_bounds`. -/
def Box.and (a b : Box) : Box :=
  Box.from_bounds (max a.front b.front) (min a.back b.back)
    (max a.bottom b.bottom) (min a.top b.top)
    (max a.left b.left) (min a.right b.right)

/-- `Box.__isub__` (bbox.py lines 317–319): shift the origin down by an
offset, keeping the shape.  Modelled as a pure function returning the
shifted box. -/
def Box.isub (b : Box) (offset : Int × Int × Int) : Box :=
  { b with origin :=
      (b.origin.1 - offset.1, b.origin.2.1 - offset.2.1, b.origin.2.2 - offset.2.2) }

/-- A box is empty when any shape component is 0 (spec §3). -/
def Box.isEmpty (b : Box) : Bool :=
  b.shape.1 == 0 || b.shape.2.1 == 0 || b.shape.2.2 == 0

/-- `Box.contains` (bbox.py lines 107–116) on a 3D point: for each axis,
reject when `p[d] < origin[d]` or `p[d] > origin[d] + shape[d]`. -/
def Box.contains (b : Box) (p : Int × Int × Int) : Bool :=
  if p.1 < b.origin.1 || p.1 > b.origin.1 + (b.shape.1 : Int) then false
  else if p.2.1 < b.origin.2.1 || p.2.1 > b.origin.2.1 + (b.shape.2.1 : Int) then false
  else if p.2.2 < b.origin.2.2 || p.2.2 > b.origin.2.2 + (b.shape.2.2 : Int) then false
  else true

/-- `Box.contains` on a 2D point: promoted to `(0, *p)` (bbox.py lines 110–111). -/
def Box.contains2 (b : Box) (p : Int × Int) : Bool :=
  b.contains (0, p.1, p.2)

/-! ## Python slices and NumPy arrays -/

/-- A Python `slice(start, stop)` with unit step: both endpoints may be
negative or out of range; `resolveIdx` applies Python's resolution rules. -/
abbrev Slice := Int × Int

abbrev Slices3 := Slice × Slice × Slice

abbrev Slices2 := Slice × Slice

/-- Python's resolution of one slice endpoint against an axis of length `n`:
a negative index counts from the end (clamped below at 0), a non-negative
one is clamped above at `n`. -/
def resolveIdx (i : Int) (n : Nat) : Nat :=
  if i < 0 then (i + n).toNat else min i.toNat n

/-- First selected index of a unit-step slice on an axis of length `n`. -/
def resStart (s : Slice) (n : Nat) : Nat := resolveIdx s.1 n

/-- Number of indices a unit-step slice selects on an axis of length `n`. -/
def resLen (s : Slice) (n : Nat) : Nat := resolveIdx s.2 n - resolveIdx s.1 n

/-- Whether index `i` is selected by slice `s` on an axis of length `n`. -/
def inSlice (i : Nat) (s : Slice) (n : Nat) : Bool :=
  resStart s n ≤ i && i < resStart s n + resLen s n

/-- The z slice `slice(front, back)` of a box (bbox.py lines 139–143). -/
def Box.sliceZ (b : Box) : Slice := (b.front, b.back)

/-- The y slice `slice(bottom, top)` of a box. -/
def Box.sliceY (b : Box) : Slice := (b.bottom, b.top)

/-- The x slice `slice(left, right)` of a box. -/
def Box.sliceX (b : Box) : Slice := (b.left, b.right)

/-- `Box.slices_for` (bbox.py lines 118–148) for a 3D target shape: intersect
with `Box(shape)` and return the overlap's z, y, x slices. -/
def Box.slices_for3 (b : Box) (shape : Nat × Nat × Nat) : Slices3 :=
  let overlap := b.and (Box.ofShape3 shape)
  (overlap.sliceZ, overlap.sliceY, overlap.sliceX)

/-- `Box.slices_for` for a 2D target shape: the same computation against the
promoted `Box(shape)`, returning only the y and x slices. -/
def Box.slices_for2 (b : Box) (shape : Nat × Nat) : Slices2 :=
  let overlap := b.and (Box.ofShape2 shape)
  (overlap.sliceY, overlap.sliceX)

/-- A 3D NumPy array: a shape, a total value function (meaningful below the
shape), and a dtype tag. -/
structure Arr3 where
  shape : Nat × Nat × Nat
  data : Nat → Nat → Nat → Int
  dtype : Nat

/-- A 2D NumPy array. -/
structure Arr2 where
  shape : Nat × Nat
  data : Nat → Nat → Int
  dtype : Nat

/-- NumPy's default dtype for `np.zeros`. -/
def float64 : Nat := 0

/-- `np.zeros(shape)`. -/
def zeros3 (shape : Nat × Nat × Nat) : Arr3 :=
  { shape := shape, data := fun _ _ _ => 0, dtype := float64 }

/-- `np.zeros(shape)` in 2D. -/
def zeros2 (shape : Nat × Nat) : Arr2 :=
  { shape := shape, data := fun _ _ => 0, dtype := float64 }

/-- The NumPy slice assignment `dst[ds] = src[ss]` with unit-step slices, in
the shape-matched case (the only one the operations below produce, proved by
the `setSliceOk` results): every destination position selected by `ds`
receives the source value at the same offset into `ss`; all other positions
keep their value. -/
def setSlice3 (dst : Arr3) (ds : Slices3) (src : Arr3) (ss : Slices3) : Arr3 :=
  { dst with data := fun z y x =>
      (if inSlice z ds.1 dst.shape.1 && inSlice y ds.2.1 dst.shape.2.1
          && inSlice x ds.2.2 dst.shape.2.2 then
        src.data (resStart ss.1 src.shape.1 + (z - resStart ds.1 dst.shape.1))
          (resStart ss.2.1 src.shape.2.1 + (y - resStart ds.2.1 dst.shape.2.1))
          (resStart ss.2.2 src.shape.2.2 + (x - resStart ds.2.2 dst.shape.2.2))
      else dst.data z y x) }

/-- The NumPy slice assignment in 2D. -/
def setSlice2 (dst : Arr2) (ds : Slices2) (src : Arr2) (ss : Slices2) : Arr2 :=
  { dst with data := fun y x =>
      (if inSlice y ds.1 dst.shape.1 && inSlice x ds.2 dst.shape.2 then
        src.data (resStart ss.1 src.shape.1 + (y - resStart ds.1 dst.shape.1))
          (resStart ss.2 src.shape.2 + (x - resStart ds.2 dst.shape.2))
      else dst.data y x) }

/-- The selections of `dst[ds]` and `src[ss]` have equal extent on every
axis, so the NumPy assignment raises nothing. -/
def setSliceOk3 (dst : Arr3) (ds : Slices3) (src : Arr3) (ss : Slices3) : Prop :=
  resLen ds.1 dst.shape.1 = resLen ss.1 src.shape.1
    ∧ resLen ds.2.1 dst.shape.2.1 = resLen ss.2.1 src.shape.2.1
    ∧ resLen ds.2.2 dst.shape.2.2 = resLen ss.2.2 src.shape.2.2

/-- The 2D counterpart of `setSliceOk3`. -/
def setSliceOk2 (dst : Arr2) (ds : Slices2) (src : Arr2) (ss : Slices2) : Prop :=
  resLen ds.1 dst.shape.1 = resLen ss.1 src.shape.1
    ∧ resLen ds.2 dst.shape.2 = resLen ss.2 src.shape.2

/-- `Box.extract_from` (bbox.py lines 150–177) for a 3D image: allocate the
fresh zero buffer when none is supplied, shift the image's own box into this
box's frame, intersect with the buffer's box, and copy
`sub[overlap.slices_for(sub)] = image[self.slices_for(image)]`. -/
def Box.extract_from3 (b : Box) (image : Arr3) (sub? : Option Arr3) : Arr3 :=
  let sub := sub?.getD (zeros3 b.shape)
  let subbox := Box.ofShape3 sub.shape
  let imbox := (Box.ofShape3 image.shape).isub b.origin
  let overlap := imbox.and subbox
  setSlice3 sub (overlap.slices_for3 sub.shape) image (b.slices_for3 image.shape)

/-- `Box.extract_from` for a 2D image: the fresh buffer drops the depth axis
(`np.zeros(self.shape[1:])`, bbox.py line 170). -/
def Box.extract_from2 (b : Box) (image : Arr2) (sub? : Option Arr2) : Arr2 :=
  let sub := sub?.getD (zeros2 (b.shape.2.1, b.shape.2.2))
  let subbox := Box.ofShape2 sub.shape
  let imbox := (Box.ofShape2 image.shape).isub b.origin
  let overlap := imbox.and subbox
  setSlice2 sub (overlap.slices_for2 sub.shape) image (b.slices_for2 image.shape)

/-- `Box.insert_into` (bbox.py lines 179–202) for 3D arrays:
`image[self.slices_for(image)] = sub[overlap.slices_for(sub)]`. -/
def Box.insert_into3 (b : Box) (image sub : Arr3) : Arr3 :=
  let subbox := Box.ofShape3 sub.shape
  let imbox := (Box.ofShape3 image.shape).isub b.origin
  let overlap := imbox.and subbox
  setSlice3 image (b.slices_for3 image.shape) sub (overlap.slices_for3 sub.shape)

/-- The no-exception statement for a fresh-buffer `extract_from` in 3D: the
two selections of the copy have equal extents (the same `let` chain as
`Box.extract_from3`). -/
def Box.extractOk3 (b : Box) (image : Arr3) : Prop :=
  let sub := zeros3 b.shape
  let subbox := Box.ofShape3 sub.shape
  let imbox := (Box.ofShape3 image.shape).isub b.origin
  let overlap := imbox.and subbox
  setSliceOk3 sub (overlap.slices_for3 sub.shape) image (b.slices_for3 image.shape)

/-- The no-exception statement for a fresh-buffer `extract_from` in 2D. -/
def Box.extractOk2 (b : Box) (image : Arr2) : Prop :=
  let sub := zeros2 (b.shape.2.1, b.shape.2.2)
  let subbox := Box.ofShape2 sub.shape
  let imbox := (Box.ofShape2 image.shape).isub b.origin
  let overlap := imbox.and subbox
  setSliceOk2 sub (overlap.slices_for2 sub.shape) image (b.slices_for2 image.shape)

/-- The no-exception statement for `insert_into` in 3D. -/
def Box.insertOk3 (b : Box) (image sub : Arr3) : Prop :=
  let subbox := Box.ofShape3 sub.shape
  let imbox := (Box.ofShape3 image.shape).isub b.origin
  let overlap := imbox.and subbox
  setSliceOk3 image (b.slices_for3 image.shape) sub (overlap.slices_for3 sub.shape)

/-! ## The `__copy__` protocol -/

/-- The instance attributes a `Box` carries: `__init__` (bbox.py lines 19–29)
assigns exactly `self.shape` and `self.origin`, and no other method adds one. -/
def Box.instanceAttrs : List String := ["shape", "origin"]

/-- The parameter names `Box.__init__` accepts (bbox.py line 19):
`shape` and `origin`. -/
def Box.initKeywords : List String := ["shape", "origin"]

/-- `Box.__copy__` (bbox.py lines 321–322): `return Box(self.shape, offset=self.offset)`.
Evaluating it first reads the attribute `self.offset`, which raises
`AttributeError` unless `offset` is an instance attribute; were that read to
succeed, the call would still pass the keyword `offset`, which `__init__`
rejects with `TypeError`.  Only when both names exist could a box be
returned. -/
def Box.copyProtocol (b : Box) : Except String Box :=
  if "offset" ∈ Box.instanceAttrs then
    if "offset" ∈ Box.initKeywords then
      Except.ok { shape := b.shape, origin := b.origin }
    else Except.error ("TypeError: __init__ got an unexpected keyword argument offset")
  else Except.error ("AttributeError: Box object has no attribute offset")

/-! ## The component layer (src/scarlet/component.py)

`Frame`, `Model.get_models_of_children`, `Box.__matmul__` and
`overlapped_slices` are imported by component.py but their code is not part
of the excerpted sources, so they are modelled from the spec where marked. -/

/-- Modelled from the spec: the `Frame` collaborator (spec §6) "must expose a
`shape` ..., a `bbox`-equivalent region describing its own full extent, and
optionally a declared numeric element type".  Its shape is its full-extent
region's shape. -/
structure Frame where
  bbox : Box
  dtype : Option Nat
deriving DecidableEq

/-- The frame's full extent shape. -/
def Frame.shape (f : Frame) : Nat × Nat × Nat := f.bbox.shape

/-- One axis of the overlap index-range pair: the overlapping range of
`[lo1, hi1)` and `[lo2, hi2)`, clamped to the degenerate empty range at the
lower bound when the boxes do not meet on the axis (spec §4.1). -/
def clampAx (lo1 hi1 lo2 hi2 : Int) : Slice :=
  let lo := max lo1 lo2
  let hi := min hi1 hi2
  (lo, max hi lo)

/-- A range re-expressed relative to an origin coordinate. -/
def relAx (s : Slice) (o : Int) : Slice := (s.1 - o, s.2 - o)

/-- Modelled from the spec: `overlapped_slices(bbox1, bbox2)` (imported by
component.py line 7 but absent from the excerpted bbox.py) "computes the
overlap index-range pair" (spec §4.3) between the two regions: the paired
per-axis index ranges over the overlap of the two boxes, each expressed
relative to its own box's origin, the overlap "clamped to the degenerate
empty Region" when the boxes share no point on an axis (spec §4.1). -/
def overlapped_slices (bbox1 bbox2 : Box) : Slices3 × Slices3 :=
  let z := clampAx bbox1.front bbox1.back bbox2.front bbox2.back
  let y := clampAx bbox1.bottom bbox1.top bbox2.bottom bbox2.top
  let x := clampAx bbox1.left bbox1.right bbox2.left bbox2.right
  ((relAx z bbox1.front, relAx y bbox1.bottom, relAx x bbox1.left),
   (relAx z bbox2.front, relAx y bbox2.bottom, relAx x bbox2.left))

/-- `Component` (component.py lines 10–78): a frame, a bounding box, and the
index-range pair between the frame's box and the component's box, recomputed
synchronously whenever `bbox` or `frame` is assigned. -/
structure Component where
  frame : Frame
  bbox : Box
  model_frame_slices : Slices3
  model_slices : Slices3

/-- `Component.__init__` followed by the `frame` setter (component.py lines
26–35 and 66–78): store the box and frame and compute the cached pair with
`overlapped_slices(frame.bbox, bbox)`. -/
def Component.make (frame : Frame) (bbox : Box) : Component :=
  let s := overlapped_slices frame.bbox bbox
  { frame := frame, bbox := bbox, model_frame_slices := s.1, model_slices := s.2 }

/-- `Component.model_to_frame` (component.py lines 80–117) with the model
array supplied: when the target frame is absent or equals the component's
own frame, the cached slice pair is used; otherwise a fresh pair is computed
from `overlapped_slices(frame.bbox, self.bbox)`.  A zero array of the
frame's shape is allocated with the frame's declared dtype when present
(`hasattr(frame, "dtype")`), else the model's dtype, and the overlapping
portion is written into it. -/
def Component.model_to_frame (c : Component) (frame? : Option Frame) (model : Arr3) : Arr3 :=
  let picked : Frame × Slices3 × Slices3 :=
    match frame? with
    | none => (c.frame, c.model_frame_slices, c.model_slices)
    | some f =>
        if f = c.frame then (c.frame, c.model_frame_slices, c.model_slices)
        else (f, overlapped_slices f.bbox c.bbox)
  let fr := picked.1
  let dtype := fr.dtype.getD model.dtype
  let result : Arr3 := { shape := fr.shape, data := fun _ _ _ => 0, dtype := dtype }
  setSlice3 result picked.2.1 model picked.2.2

/-- Modelled from the spec: the `Spectrum` collaborator "exposes its own
`bbox`" (spec §6). -/
structure Spectrum where
  bbox : Box

/-- Modelled from the spec: the `Morphology` collaborator "exposes its own
`bbox`" (spec §6). -/
structure Morphology where
  bbox : Box

/-- Modelled from the spec: `Box.__matmul__`, used by
`FactorizedComponent.__init__` as `spectrum.bbox @ morphology.bbox`
(component.py line 146) but absent from the excerpted bbox.py.  Per spec §6
"the factorized node's bbox is the *intersection* of its spectrum's and
morphology's bboxes", the repository's region intersection being `__and__`. -/
def Box.matmul (a b : Box) : Box := a.and b

/-- `FactorizedComponent.__init__` (component.py lines 137–148): the node's
box is `spectrum.bbox @ morphology.bbox`, handed to `Component.__init__`. -/
def FactorizedComponent.make (frame : Frame) (spectrum : Spectrum)
    (morphology : Morphology) : Component :=
  Component.make frame (spectrum.bbox.matmul morphology.bbox)

/-! ## Rendering with explicit aliasing

Parameter arrays live in a heap of numbered slots; returning a NumPy array
without copying it is returning its slot number. -/

/-- The store of parameter arrays. -/
abbrev Heap := Nat → Arr3

/-- Overwrite one heap slot. -/
def updateHeap (h : Heap) (r : Nat) (a : Arr3) : Heap :=
  fun i => if i = r then a else h i

/-- NumPy's in-place `model += model_`: the target keeps its shape and dtype
and every entry gains the other array's entry. -/
def arrAdd (a b : Arr3) : Arr3 :=
  { a with data := fun z y x => a.data z y x + b.data z y x }

/-- NumPy's in-place `model *= model_`. -/
def arrMul (a b : Arr3) : Arr3 :=
  { a with data := fun z y x => a.data z y x * b.data z y x }

/-- What `CombinedComponent.__init__` inspects of each child, plus the heap
slot of the array the child's `get_model` returns (for a `CubeComponent`,
component.py lines 200–205, that is its `cube` parameter array itself). -/
structure CubeComponentM where
  frameRef : Nat
  bbox : Box
  pid : Nat
deriving DecidableEq

/-- `CubeComponent.get_model` with no target frame (component.py lines
200–205): return the parameter array itself — its heap slot — changing no
state. -/
def CubeComponentM.get_model (c : CubeComponentM) (h : Heap) : Nat × Heap :=
  (c.pid, h)

/-- The operation tag accepted by `CombinedComponent`. -/
def opAdd : String := "add"

/-- The other accepted operation tag. -/
def opMultiply : String := "multiply"

/-- `CombinedComponent.__init__` (component.py lines 209–224): `assert
len(components)`; every child must hold the identical frame object
(`c.frame is frame`, here: an equal frame reference) and, when `check_boxes`,
a bbox equal to the first child's; finally `assert operation in ["add",
"multiply"]`.  A failed assertion is `none`. -/
def combinedInit (components : List CubeComponentM) (operation : String)
    (check_boxes : Bool) : Option (Nat × Box × List CubeComponentM × String) :=
  match components with
  | [] => none
  | c0 :: _ =>
    if components.all fun c =>
        c.frameRef == c0.frameRef && (!check_boxes || c.bbox == c0.bbox) then
      if operation = opAdd ∨ operation = opMultiply then
        some (c0.frameRef, c0.bbox, components, operation)
      else none
    else none

/-- `CombinedComponent.get_model` with no target frame (component.py lines
226–239): render every child (modelled from the spec:
`get_models_of_children` renders each child in order — spec §4.3 "combined:
recursive render of each child"), take the first returned array, and fold
the others into it **in place** with `model += model_` or `model *= model_`;
the first child's array is returned. -/
def combinedGetModel (components : List CubeComponentM) (operation : String)
    (h : Heap) : Option (Nat × Heap) :=
  match components.map fun c => (c.get_model h).1 with
  | [] => none
  | r0 :: rest =>
    if operation = opAdd then
      some (r0, rest.foldl (fun hh r => updateHeap hh r0 (arrAdd (hh r0) (hh r))) h)
    else if operation = opMultiply then
      some (r0, rest.foldl (fun hh r => updateHeap hh r0 (arrMul (hh r0) (hh r))) h)
    else some (r0, h)

/-- The elementwise sum over the arrays in the listed heap slots. -/
def sumData (h : Heap) (pids : List Nat) (z y x : Nat) : Int :=
  (pids.map fun p => (h p).data z y x).sum

/-- The elementwise product over the arrays in the listed heap slots. -/
def prodData (h : Heap) (pids : List Nat) (z y x : Nat) : Int :=
  (pids.map fun p => (h p).data z y x).prod

/-- The box lies entirely outside an array extent `[0, shape)`: on some axis
its interval `[origin, origin+shape)` ends at or before 0 or starts at or
past the extent. -/
def Box.outside3 (b : Box) (shape : Nat × Nat × Nat) : Prop :=
  b.origin.1 + b.shape.1 ≤ 0 ∨ (shape.1 : Int) ≤ b.origin.1
    ∨ b.origin.2.1 + b.shape.2.1 ≤ 0 ∨ (shape.2.1 : Int) ≤ b.origin.2.1
    ∨ b.origin.2.2 + b.shape.2.2 ≤ 0 ∨ (shape.2.2 : Int) ≤ b.origin.2.2

/-- A tiny heap for concrete render examples: slot `p` holds a `(1,1,1)`
array of constant value `2 + p`. -/
def exampleHeap : Heap :=
  fun p => { shape := (1, 1, 1), data := fun _ _ _ => 2 + p, dtype := 0 }

/-- A cube child over frame reference 0 and a fixed unit box, whose `cube`
parameter lives in heap slot `p`. -/
def exampleCube (p : Nat) : CubeComponentM :=
  { frameRef := 0, bbox := { shape := (1, 1, 1), origin := (0, 0, 0) }, pid := p }

/-- A small frame for concrete projection examples. -/
def exampleFrame : Frame :=
  { bbox := { shape := (1, 4, 4), origin := (0, 0, 0) }, dtype := some 3 }

/-- A small component box for concrete projection examples. -/
def exampleBox : Box := { shape := (1, 2, 2), origin := (0, 1, 1) }

/-- A model array shaped to `exampleBox`. -/
def exampleModel : Arr3 :=
  { shape := (1, 2, 2), data := fun _ y x => 100 + 10 * (y : Int) + (x : Int), dtype := 7 }

/-! ## One axis of the box algebra -/

/-- The slice `__and__` produces on one axis: max of lower bounds, min of
upper bounds, normalized by `from_bounds`'s swap. -/
def interAx (lo1 hi1 lo2 hi2 : Int) : Slice :=
  normPair (max lo1 lo2) (min hi1 hi2)

/-- One axis of `self.slices_for(target)`: the box's interval `[o, o+s)`
intersected with the target's `[0, n)`. -/
def rhsAx (o : Int) (s n : Nat) : Slice :=
  interAx o (o + s) 0 n

/-- One axis of `overlap.slices_for(sub)` as `extract_from`/`insert_into`
build it: the target's interval `[0, n)` shifted into the box's frame
(giving `[-o, -o+n)`), intersected with the buffer's `[0, m)`, then
intersected with `[0, m)` once more by `slices_for`. -/
def lhsAx (o : Int) (n m : Nat) : Slice :=
  interAx (interAx (-o) (-o + n) 0 m).1 (interAx (-o) (-o + n) 0 m).2 0 m

/-! ## Lemmas: slices of `from_bounds` boxes -/

theorem normPair_fst_le_snd (a b : Int) : (normPair a b).1 ≤ (normPair a b).2 := by
  unfold normPair; split <;> dsimp <;> omega

theorem from_bounds_sliceZ (f b bo t l r : Int) :
    (Box.from_bounds f b bo t l r).sliceZ = normPair f b := by
  have h := normPair_fst_le_snd f b
  simp only [Box.from_bounds, Box.sliceZ, Box.front, Box.back]
  ext <;> simp <;> omega

theorem from_bounds_sliceY (f b bo t l r : Int) :
    (Box.from_bounds f b bo t l r).sliceY = normPair bo t := by
  have h := normPair_fst_le_snd bo t
  simp only [Box.from_bounds, Box.sliceY, Box.bottom, Box.top]
  ext <;> simp <;> omega

theorem from_bounds_sliceX (f b bo t l r : Int) :
    (Box.from_bounds f b bo t l r).sliceX = normPair l r := by
  have h := normPair_fst_le_snd l r
  simp only [Box.from_bounds, Box.sliceX, Box.left, Box.right]
  ext <;> simp <;> omega

theorem and_sliceZ (a c : Box) :
    (a.and c).sliceZ = interAx a.front a.back c.front c.back :=
  from_bounds_sliceZ _ _ _ _ _ _

theorem and_sliceY (a c : Box) :
    (a.and c).sliceY = interAx a.bottom a.top c.bottom c.top :=
  from_bounds_sliceY _ _ _ _ _ _

theorem and_sliceX (a c : Box) :
    (a.and c).sliceX = interAx a.left a.right c.left c.right :=
  from_bounds_sliceX _ _ _ _ _ _

theorem slices_for3_eq (b : Box) (ns : Nat × Nat × Nat) :
    b.slices_for3 ns = (rhsAx b.origin.1 b.shape.1 ns.1,
      rhsAx b.origin.2.1 b.shape.2.1 ns.2.1, rhsAx b.origin.2.2 b.shape.2.2 ns.2.2) := by
  show ((b.and (Box.ofShape3 ns)).sliceZ, (b.and (Box.ofShape3 ns)).sliceY,
      (b.and (Box.ofShape3 ns)).sliceX) = _
  rw [and_sliceZ, and_sliceY, and_sliceX]
  simp [Box.ofShape3, Box.front, Box.back, Box.bottom, Box.top, Box.left, Box.right,
    rhsAx]

theorem slices_for2_eq (b : Box) (ns : Nat × Nat) :
    b.slices_for2 ns = (rhsAx b.origin.2.1 b.shape.2.1 ns.1,
      rhsAx b.origin.2.2 b.shape.2.2 ns.2) := by
  show ((b.and (Box.ofShape2 ns)).sliceY, (b.and (Box.ofShape2 ns)).sliceX) = _
  rw [and_sliceY, and_sliceX]
  simp [Box.ofShape2, Box.bottom, Box.top, Box.left, Box.right, rhsAx]

theorem overlap_slices3_eq (b : Box) (ns ms : Nat × Nat × Nat) :
    ((((Box.ofShape3 ns).isub b.origin).and (Box.ofShape3 ms)).slices_for3 ms)
      = (lhsAx b.origin.1 ns.1 ms.1, lhsAx b.origin.2.1 ns.2.1 ms.2.1,
         lhsAx b.origin.2.2 ns.2.2 ms.2.2) := by
  have hz : (((Box.ofShape3 ns).isub b.origin).and (Box.ofShape3 ms)).sliceZ
      = interAx (-b.origin.1) (-b.origin.1 + ns.1) 0 ms.1 := by
    rw [and_sliceZ]
    simp [Box.isub, Box.ofShape3, Box.front, Box.back]
  have hy : (((Box.ofShape3 ns).isub b.origin).and (Box.ofShape3 ms)).sliceY
      = interAx (-b.origin.2.1) (-b.origin.2.1 + ns.2.1) 0 ms.2.1 := by
    rw [and_sliceY]
    simp [Box.isub, Box.ofShape3, Box.bottom, Box.top]
  have hx : (((Box.ofShape3 ns).isub b.origin).and (Box.ofShape3 ms)).sliceX
      = interAx (-b.origin.2.2) (-b.origin.2.2 + ns.2.2) 0 ms.2.2 := by
    rw [and_sliceX]
    simp [Box.isub, Box.ofShape3, Box.left, Box.right]
  rw [slices_for3_eq]
  set A := (((Box.ofShape3 ns).isub b.origin).and (Box.ofShape3 ms)) with hA
  refine Prod.ext ?_ (Prod.ext ?_ ?_)
  · show interAx A.sliceZ.1 A.sliceZ.2 0 ms.1 = _
    rw [hz]
    rfl
  · show interAx A.sliceY.1 A.sliceY.2 0 ms.2.1 = _
    rw [hy]
    rfl
  · show interAx A.sliceX.1 A.sliceX.2 0 ms.2.2 = _
    rw [hx]
    rfl

theorem overlap_slices2_eq (b : Box) (ns ms : Nat × Nat) :
    ((((Box.ofShape2 ns).isub b.origin).and (Box.ofShape2 ms)).slices_for2 ms)
      = (lhsAx b.origin.2.1 ns.1 ms.1, lhsAx b.origin.2.2 ns.2 ms.2) := by
  have hy : (((Box.ofShape2 ns).isub b.origin).and (Box.ofShape2 ms)).sliceY
      = interAx (-b.origin.2.1) (-b.origin.2.1 + ns.1) 0 ms.1 := by
    rw [and_sliceY]
    simp [Box.isub, Box.ofShape2, Box.bottom, Box.top]
  have hx : (((Box.ofShape2 ns).isub b.origin).and (Box.ofShape2 ms)).sliceX
      = interAx (-b.origin.2.2) (-b.origin.2.2 + ns.2) 0 ms.2 := by
    rw [and_sliceX]
    simp [Box.isub, Box.ofShape2, Box.left, Box.right]
  rw [slices_for2_eq]
  set A := (((Box.ofShape2 ns).isub b.origin).and (Box.ofShape2 ms)) with hA
  refine Prod.ext ?_ ?_
  · show interAx A.sliceY.1 A.sliceY.2 0 ms.1 = _
    rw [hy]
    rfl
  · show interAx A.sliceX.1 A.sliceX.2 0 ms.2 = _
    rw [hx]
    rfl

/-! ## Lemmas: the resolved slices on one axis

`rhsAx o s n` is the slice taken from the target array (length `n`) for a
box axis `[o, o+s)`, and `lhsAx o n s` the slice taken from the fresh
buffer (length `s`); resolved with NumPy's rules they select equally many
indices, the buffer index `i` is selected exactly when the box position
`o + i` lies inside the target, and corresponding indices differ by `o`. -/

theorem interAx_fst (lo1 hi1 lo2 hi2 : Int) :
    (interAx lo1 hi1 lo2 hi2).1 =
      if min hi1 hi2 < max lo1 lo2 then min hi1 hi2 else max lo1 lo2 := by
  unfold interAx normPair
  split <;> rfl

theorem interAx_snd (lo1 hi1 lo2 hi2 : Int) :
    (interAx lo1 hi1 lo2 hi2).2 =
      if min hi1 hi2 < max lo1 lo2 then max lo1 lo2 else min hi1 hi2 := by
  unfold interAx normPair
  split <;> rfl

set_option maxHeartbeats 2000000 in
theorem resLen_lhs_eq_rhs (o : Int) (s n : Nat) :
    resLen (lhsAx o n s) s = resLen (rhsAx o s n) n := by
  simp only [lhsAx, rhsAx, resLen, resStart, resolveIdx, interAx_fst, interAx_snd]
  split_ifs <;> omega

set_option maxHeartbeats 2000000 in
theorem inSlice_lhsAx (o : Int) (s n : Nat) (i : Nat) :
    inSlice i (lhsAx o n s) s = true ↔ i < s ∧ 0 ≤ o + i ∧ o + i < n := by
  simp only [inSlice, Bool.and_eq_true, decide_eq_true_eq, lhsAx, resLen, resStart,
    resolveIdx, interAx_fst, interAx_snd]
  split_ifs <;> omega

set_option maxHeartbeats 2000000 in
theorem inSlice_rhsAx (o : Int) (s n : Nat) (g : Nat) :
    inSlice g (rhsAx o s n) n = true ↔ g < n ∧ o ≤ g ∧ (g : Int) < o + s := by
  simp only [inSlice, Bool.and_eq_true, decide_eq_true_eq, rhsAx, resLen, resStart,
    resolveIdx, interAx_fst, interAx_snd]
  split_ifs <;> omega

set_option maxHeartbeats 2000000 in
theorem map_lhs_to_rhs (o : Int) (s n : Nat) (i : Nat)
    (h : inSlice i (lhsAx o n s) s = true) :
    resStart (rhsAx o s n) n + (i - resStart (lhsAx o n s) s) = (o + i).toNat := by
  simp only [inSlice, Bool.and_eq_true, decide_eq_true_eq, lhsAx, rhsAx, resLen,
    resStart, resolveIdx, interAx_fst, interAx_snd] at h ⊢
  split_ifs at h ⊢ <;> omega

set_option maxHeartbeats 2000000 in
theorem map_rhs_to_lhs (o : Int) (s n : Nat) (g : Nat)
    (h : inSlice g (rhsAx o s n) n = true) :
    resStart (lhsAx o n s) s + (g - resStart (rhsAx o s n) n) = ((g : Int) - o).toNat := by
  simp only [inSlice, Bool.and_eq_true, decide_eq_true_eq, lhsAx, rhsAx, resLen,
    resStart, resolveIdx, interAx_fst, interAx_snd] at h ⊢
  split_ifs at h ⊢ <;> omega

/-! ## Pointwise characterization of `extract_from` and `insert_into` -/

theorem extract_from3_data (b : Box) (image : Arr3) (z y x : Nat) :
    (b.extract_from3 image none).data z y x =
      if (z < b.shape.1 ∧ 0 ≤ b.origin.1 + z ∧ b.origin.1 + z < image.shape.1)
          ∧ (y < b.shape.2.1 ∧ 0 ≤ b.origin.2.1 + y ∧ b.origin.2.1 + y < image.shape.2.1)
          ∧ (x < b.shape.2.2 ∧ 0 ≤ b.origin.2.2 + x ∧ b.origin.2.2 + x < image.shape.2.2) then
        image.data (b.origin.1 + z).toNat (b.origin.2.1 + y).toNat (b.origin.2.2 + x).toNat
      else 0 := by
  unfold Box.extract_from3
  simp only [Option.getD_none, zeros3, setSlice3, float64]
  rw [overlap_slices3_eq b image.shape b.shape, slices_for3_eq b image.shape]
  by_cases hP : (z < b.shape.1 ∧ 0 ≤ b.origin.1 + z ∧ b.origin.1 + z < image.shape.1)
      ∧ (y < b.shape.2.1 ∧ 0 ≤ b.origin.2.1 + y ∧ b.origin.2.1 + y < image.shape.2.1)
      ∧ (x < b.shape.2.2 ∧ 0 ≤ b.origin.2.2 + x ∧ b.origin.2.2 + x < image.shape.2.2)
  · rw [if_pos hP]
    obtain ⟨hz, hy, hx⟩ := hP
    have e1 : inSlice z (lhsAx b.origin.1 image.shape.1 b.shape.1) b.shape.1 = true :=
      (inSlice_lhsAx _ _ _ _).mpr hz
    have e2 : inSlice y (lhsAx b.origin.2.1 image.shape.2.1 b.shape.2.1) b.shape.2.1 = true :=
      (inSlice_lhsAx _ _ _ _).mpr hy
    have e3 : inSlice x (lhsAx b.origin.2.2 image.shape.2.2 b.shape.2.2) b.shape.2.2 = true :=
      (inSlice_lhsAx _ _ _ _).mpr hx
    simp only [e1, e2, e3, Bool.true_and, Bool.and_true]
    simp only [if_true]
    rw [map_lhs_to_rhs _ _ _ _ e1, map_lhs_to_rhs _ _ _ _ e2, map_lhs_to_rhs _ _ _ _ e3]
  · rw [if_neg hP]
    have hb : ¬((inSlice z (lhsAx b.origin.1 image.shape.1 b.shape.1) b.shape.1
        && inSlice y (lhsAx b.origin.2.1 image.shape.2.1 b.shape.2.1) b.shape.2.1
        && inSlice x (lhsAx b.origin.2.2 image.shape.2.2 b.shape.2.2) b.shape.2.2) = true) := by
      intro hb
      simp only [Bool.and_eq_true] at hb
      exact hP ⟨(inSlice_lhsAx _ _ _ _).mp hb.1.1, (inSlice_lhsAx _ _ _ _).mp hb.1.2,
        (inSlice_lhsAx _ _ _ _).mp hb.2⟩
    rw [if_neg hb]

theorem extract_from2_data (b : Box) (image : Arr2) (y x : Nat) :
    (b.extract_from2 image none).data y x =
      if (y < b.shape.2.1 ∧ 0 ≤ b.origin.2.1 + y ∧ b.origin.2.1 + y < image.shape.1)
          ∧ (x < b.shape.2.2 ∧ 0 ≤ b.origin.2.2 + x ∧ b.origin.2.2 + x < image.shape.2) then
        image.data (b.origin.2.1 + y).toNat (b.origin.2.2 + x).toNat
      else 0 := by
  unfold Box.extract_from2
  simp only [Option.getD_none, zeros2, setSlice2, float64]
  rw [overlap_slices2_eq b image.shape (b.shape.2.1, b.shape.2.2),
    slices_for2_eq b image.shape]
  by_cases hP : (y < b.shape.2.1 ∧ 0 ≤ b.origin.2.1 + y ∧ b.origin.2.1 + y < image.shape.1)
      ∧ (x < b.shape.2.2 ∧ 0 ≤ b.origin.2.2 + x ∧ b.origin.2.2 + x < image.shape.2)
  · rw [if_pos hP]
    obtain ⟨hy, hx⟩ := hP
    have e2 : inSlice y (lhsAx b.origin.2.1 image.shape.1 b.shape.2.1) b.shape.2.1 = true :=
      (inSlice_lhsAx _ _ _ _).mpr hy
    have e3 : inSlice x (lhsAx b.origin.2.2 image.shape.2 b.shape.2.2) b.shape.2.2 = true :=
      (inSlice_lhsAx _ _ _ _).mpr hx
    simp only [e2, e3, Bool.true_and, Bool.and_true]
    simp only [if_true]
    rw [map_lhs_to_rhs _ _ _ _ e2, map_lhs_to_rhs _ _ _ _ e3]
  · rw [if_neg hP]
    have hb : ¬((inSlice y (lhsAx b.origin.2.1 image.shape.1 b.shape.2.1) b.shape.2.1
        && inSlice x (lhsAx b.origin.2.2 image.shape.2 b.shape.2.2) b.shape.2.2) = true) := by
      intro hb
      simp only [Bool.and_eq_true] at hb
      exact hP ⟨(inSlice_lhsAx _ _ _ _).mp hb.1, (inSlice_lhsAx _ _ _ _).mp hb.2⟩
    rw [if_neg hb]

theorem insert_into3_data (b : Box) (image sub : Arr3) (hs : sub.shape = b.shape)
    (z y x : Nat) :
    (b.insert_into3 image sub).data z y x =
      if (z < image.shape.1 ∧ b.origin.1 ≤ z ∧ (z : Int) < b.origin.1 + b.shape.1)
          ∧ (y < image.shape.2.1 ∧ b.origin.2.1 ≤ y ∧ (y : Int) < b.origin.2.1 + b.shape.2.1)
          ∧ (x < image.shape.2.2 ∧ b.origin.2.2 ≤ x ∧ (x : Int) < b.origin.2.2 + b.shape.2.2) then
        sub.data ((z - b.origin.1).toNat) ((y - b.origin.2.1).toNat) ((x - b.origin.2.2).toNat)
      else image.data z y x := by
  unfold Box.insert_into3
  simp only [setSlice3]
  rw [hs]
  rw [overlap_slices3_eq b image.shape b.shape, slices_for3_eq b image.shape]
  by_cases hP : (z < image.shape.1 ∧ b.origin.1 ≤ z ∧ (z : Int) < b.origin.1 + b.shape.1)
      ∧ (y < image.shape.2.1 ∧ b.origin.2.1 ≤ y ∧ (y : Int) < b.origin.2.1 + b.shape.2.1)
      ∧ (x < image.shape.2.2 ∧ b.origin.2.2 ≤ x ∧ (x : Int) < b.origin.2.2 + b.shape.2.2)
  · rw [if_pos hP]
    obtain ⟨hz, hy, hx⟩ := hP
    have e1 : inSlice z (rhsAx b.origin.1 b.shape.1 image.shape.1) image.shape.1 = true :=
      (inSlice_rhsAx _ _ _ _).mpr hz
    have e2 : inSlice y (rhsAx b.origin.2.1 b.shape.2.1 image.shape.2.1) image.shape.2.1 = true :=
      (inSlice_rhsAx _ _ _ _).mpr hy
    have e3 : inSlice x (rhsAx b.origin.2.2 b.shape.2.2 image.shape.2.2) image.shape.2.2 = true :=
      (inSlice_rhsAx _ _ _ _).mpr hx
    simp only [e1, e2, e3, Bool.true_and, Bool.and_true]
    simp only [if_true]
    rw [map_rhs_to_lhs _ _ _ _ e1, map_rhs_to_lhs _ _ _ _ e2, map_rhs_to_lhs _ _ _ _ e3]
  · rw [if_neg hP]
    have hb : ¬((inSlice z (rhsAx b.origin.1 b.shape.1 image.shape.1) image.shape.1
        && inSlice y (rhsAx b.origin.2.1 b.shape.2.1 image.shape.2.1) image.shape.2.1
        && inSlice x (rhsAx b.origin.2.2 b.shape.2.2 image.shape.2.2) image.shape.2.2) = true) := by
      intro hb
      simp only [Bool.and_eq_true] at hb
      exact hP ⟨(inSlice_rhsAx _ _ _ _).mp hb.1.1, (inSlice_rhsAx _ _ _ _).mp hb.1.2,
        (inSlice_rhsAx _ _ _ _).mp hb.2⟩
    rw [if_neg hb]

/-! ## Shapes, dtypes and the no-exception facts -/

theorem extract_from3_shape (b : Box) (image : Arr3) :
    (b.extract_from3 image none).shape = b.shape := rfl

theorem extract_from3_dtype (b : Box) (image : Arr3) :
    (b.extract_from3 image none).dtype = float64 := rfl

theorem extract_from2_shape (b : Box) (image : Arr2) :
    (b.extract_from2 image none).shape = (b.shape.2.1, b.shape.2.2) := rfl

theorem insert_into3_shape (b : Box) (image sub : Arr3) :
    (b.insert_into3 image sub).shape = image.shape := rfl

theorem insert_into3_dtype (b : Box) (image sub : Arr3) :
    (b.insert_into3 image sub).dtype = image.dtype := rfl

theorem extractOk3_holds (b : Box) (image : Arr3) : b.extractOk3 image := by
  unfold Box.extractOk3
  simp only [setSliceOk3, zeros3]
  rw [overlap_slices3_eq b image.shape b.shape, slices_for3_eq b image.shape]
  exact ⟨resLen_lhs_eq_rhs _ _ _, resLen_lhs_eq_rhs _ _ _, resLen_lhs_eq_rhs _ _ _⟩

theorem extractOk2_holds (b : Box) (image : Arr2) : b.extractOk2 image := by
  unfold Box.extractOk2
  simp only [setSliceOk2, zeros2]
  rw [overlap_slices2_eq b image.shape (b.shape.2.1, b.shape.2.2),
    slices_for2_eq b image.shape]
  exact ⟨resLen_lhs_eq_rhs _ _ _, resLen_lhs_eq_rhs _ _ _⟩

theorem insertOk3_holds (b : Box) (image sub : Arr3) (hs : sub.shape = b.shape) :
    b.insertOk3 image sub := by
  unfold Box.insertOk3
  simp only [setSliceOk3]
  rw [hs, overlap_slices3_eq b image.shape b.shape, slices_for3_eq b image.shape]
  exact ⟨(resLen_lhs_eq_rhs _ _ _).symm, (resLen_lhs_eq_rhs _ _ _).symm,
    (resLen_lhs_eq_rhs _ _ _).symm⟩

/-! ## Lemmas: the overlap index-range pair of the projection layer -/

set_option maxHeartbeats 1000000 in
theorem inSlice_clampFrame (a o : Int) (p s : Nat) (j : Nat) :
    inSlice j (relAx (clampAx a (a + p) o (o + s)) a) p = true ↔
      j < p ∧ o ≤ a + j ∧ (a : Int) + j < o + s := by
  simp only [inSlice, Bool.and_eq_true, decide_eq_true_eq, relAx, clampAx, resLen,
    resStart, resolveIdx]
  split_ifs <;> omega

set_option maxHeartbeats 1000000 in
theorem map_clampFrame (a o : Int) (p s : Nat) (j : Nat)
    (h : inSlice j (relAx (clampAx a (a + p) o (o + s)) a) p = true) :
    resStart (relAx (clampAx a (a + p) o (o + s)) o) s
        + (j - resStart (relAx (clampAx a (a + p) o (o + s)) a) p)
      = ((a : Int) + j - o).toNat := by
  simp only [inSlice, Bool.and_eq_true, decide_eq_true_eq, relAx, clampAx, resLen,
    resStart, resolveIdx] at h ⊢
  split_ifs at h ⊢ <;> omega

theorem model_to_frame_make_some (F0 : Frame) (bb : Box) (F : Frame) (model : Arr3) :
    (Component.make F0 bb).model_to_frame (some F) model
      = setSlice3
          { shape := F.shape, data := fun _ _ _ => 0, dtype := F.dtype.getD model.dtype }
          (overlapped_slices F.bbox bb).1 model (overlapped_slices F.bbox bb).2 := by
  unfold Component.model_to_frame Component.make
  by_cases h : F = F0
  · subst h
    simp
  · simp [h]

set_option maxHeartbeats 1000000 in
theorem model_to_frame_data (F0 F : Frame) (bb : Box) (model : Arr3)
    (hm : model.shape = bb.shape) (z y x : Nat) :
    ((Component.make F0 bb).model_to_frame (some F) model).data z y x =
      if (z < F.bbox.shape.1 ∧ bb.origin.1 ≤ F.bbox.origin.1 + z
            ∧ F.bbox.origin.1 + z < bb.origin.1 + bb.shape.1)
          ∧ (y < F.bbox.shape.2.1 ∧ bb.origin.2.1 ≤ F.bbox.origin.2.1 + y
            ∧ F.bbox.origin.2.1 + y < bb.origin.2.1 + bb.shape.2.1)
          ∧ (x < F.bbox.shape.2.2 ∧ bb.origin.2.2 ≤ F.bbox.origin.2.2 + x
            ∧ F.bbox.origin.2.2 + x < bb.origin.2.2 + bb.shape.2.2) then
        model.data ((F.bbox.origin.1 + z - bb.origin.1).toNat)
          ((F.bbox.origin.2.1 + y - bb.origin.2.1).toNat)
          ((F.bbox.origin.2.2 + x - bb.origin.2.2).toNat)
      else 0 := by
  rw [model_to_frame_make_some]
  simp only [setSlice3, overlapped_slices, Frame.shape, Box.front, Box.back, Box.bottom,
    Box.top, Box.left, Box.right, hm]
  by_cases hP : (z < F.bbox.shape.1 ∧ bb.origin.1 ≤ F.bbox.origin.1 + z
        ∧ F.bbox.origin.1 + z < bb.origin.1 + bb.shape.1)
      ∧ (y < F.bbox.shape.2.1 ∧ bb.origin.2.1 ≤ F.bbox.origin.2.1 + y
        ∧ F.bbox.origin.2.1 + y < bb.origin.2.1 + bb.shape.2.1)
      ∧ (x < F.bbox.shape.2.2 ∧ bb.origin.2.2 ≤ F.bbox.origin.2.2 + x
        ∧ F.bbox.origin.2.2 + x < bb.origin.2.2 + bb.shape.2.2)
  · rw [if_pos hP]
    obtain ⟨hz, hy, hx⟩ := hP
    have e1 : inSlice z (relAx (clampAx F.bbox.origin.1 (F.bbox.origin.1 + F.bbox.shape.1)
        bb.origin.1 (bb.origin.1 + bb.shape.1)) F.bbox.origin.1) F.bbox.shape.1 = true :=
      (inSlice_clampFrame _ _ _ _ _).mpr hz
    have e2 : inSlice y (relAx (clampAx F.bbox.origin.2.1 (F.bbox.origin.2.1 + F.bbox.shape.2.1)
        bb.origin.2.1 (bb.origin.2.1 + bb.shape.2.1)) F.bbox.origin.2.1) F.bbox.shape.2.1 = true :=
      (inSlice_clampFrame _ _ _ _ _).mpr hy
    have e3 : inSlice x (relAx (clampAx F.bbox.origin.2.2 (F.bbox.origin.2.2 + F.bbox.shape.2.2)
        bb.origin.2.2 (bb.origin.2.2 + bb.shape.2.2)) F.bbox.origin.2.2) F.bbox.shape.2.2 = true :=
      (inSlice_clampFrame _ _ _ _ _).mpr hx
    simp only [e1, e2, e3, Bool.true_and, Bool.and_true]
    simp only [if_true]
    rw [map_clampFrame _ _ _ _ _ e1, map_clampFrame _ _ _ _ _ e2, map_clampFrame _ _ _ _ _ e3]
  · rw [if_neg hP]
    have hb : ¬((inSlice z (relAx (clampAx F.bbox.origin.1 (F.bbox.origin.1 + F.bbox.shape.1)
          bb.origin.1 (bb.origin.1 + bb.shape.1)) F.bbox.origin.1) F.bbox.shape.1
        && inSlice y (relAx (clampAx F.bbox.origin.2.1 (F.bbox.origin.2.1 + F.bbox.shape.2.1)
          bb.origin.2.1 (bb.origin.2.1 + bb.shape.2.1)) F.bbox.origin.2.1) F.bbox.shape.2.1
        && inSlice x (relAx (clampAx F.bbox.origin.2.2 (F.bbox.origin.2.2 + F.bbox.shape.2.2)
          bb.origin.2.2 (bb.origin.2.2 + bb.shape.2.2)) F.bbox.origin.2.2) F.bbox.shape.2.2)
          = true) := by
      intro hb
      simp only [Bool.and_eq_true] at hb
      exact hP ⟨(inSlice_clampFrame _ _ _ _ _).mp hb.1.1,
        (inSlice_clampFrame _ _ _ _ _).mp hb.1.2, (inSlice_clampFrame _ _ _ _ _).mp hb.2⟩
    rw [if_neg hb]

/-! ## Lemmas: the in-place fold of `CombinedComponent.get_model` -/

theorem foldl_updateHeap_ne (r0 : Nat) (F : Heap → Nat → Arr3) (l : List Nat) (h : Heap)
    (r : Nat) (hr : r ≠ r0) :
    (l.foldl (fun hh r' => updateHeap hh r0 (F hh r')) h) r = h r := by
  induction l generalizing h with
  | nil => rfl
  | cons a t ih =>
    simp only [List.foldl_cons]
    rw [ih]
    simp [updateHeap, hr]

theorem sumData_congr (h1 h2 : Heap) (l : List Nat) (hl : ∀ p ∈ l, h1 p = h2 p)
    (z y x : Nat) : sumData h1 l z y x = sumData h2 l z y x := by
  induction l with
  | nil => rfl
  | cons a t ih =>
    simp only [sumData, List.map_cons, List.sum_cons] at ih ⊢
    rw [hl a (List.mem_cons_self a t), ih]
    intro p hp
    exact hl p (List.mem_cons_of_mem _ hp)

theorem prodData_congr (h1 h2 : Heap) (l : List Nat) (hl : ∀ p ∈ l, h1 p = h2 p)
    (z y x : Nat) : prodData h1 l z y x = prodData h2 l z y x := by
  induction l with
  | nil => rfl
  | cons a t ih =>
    simp only [prodData, List.map_cons, List.prod_cons] at ih ⊢
    rw [hl a (List.mem_cons_self a t), ih]
    intro p hp
    exact hl p (List.mem_cons_of_mem _ hp)

theorem foldl_add_at_r0 (r0 : Nat) (l : List Nat) (h : Heap) (hl : r0 ∉ l) (z y x : Nat) :
    ((l.foldl (fun hh r => updateHeap hh r0 (arrAdd (hh r0) (hh r))) h) r0).data z y x
      = (h r0).data z y x + sumData h l z y x := by
  induction l generalizing h with
  | nil => simp [sumData]
  | cons a t ih =>
    have ha : r0 ≠ a := fun e => hl (e ▸ List.mem_cons_self a t)
    have ht : r0 ∉ t := fun m => hl (List.mem_cons_of_mem _ m)
    simp only [List.foldl_cons]
    rw [ih _ ht]
    have h0 : (updateHeap h r0 (arrAdd (h r0) (h a))) r0 = arrAdd (h r0) (h a) := by
      simp [updateHeap]
    have hsum : sumData (updateHeap h r0 (arrAdd (h r0) (h a))) t z y x
        = sumData h t z y x := by
      apply sumData_congr
      intro p hp
      have : p ≠ r0 := fun e => ht (e ▸ hp)
      simp [updateHeap, this]
    rw [h0, hsum]
    simp only [arrAdd, sumData, List.map_cons, List.sum_cons]
    ring

theorem foldl_mul_at_r0 (r0 : Nat) (l : List Nat) (h : Heap) (hl : r0 ∉ l) (z y x : Nat) :
    ((l.foldl (fun hh r => updateHeap hh r0 (arrMul (hh r0) (hh r))) h) r0).data z y x
      = (h r0).data z y x * prodData h l z y x := by
  induction l generalizing h with
  | nil => simp [prodData]
  | cons a t ih =>
    have ha : r0 ≠ a := fun e => hl (e ▸ List.mem_cons_self a t)
    have ht : r0 ∉ t := fun m => hl (List.mem_cons_of_mem _ m)
    simp only [List.foldl_cons]
    rw [ih _ ht]
    have h0 : (updateHeap h r0 (arrMul (h r0) (h a))) r0 = arrMul (h r0) (h a) := by
      simp [updateHeap]
    have hprod : prodData (updateHeap h r0 (arrMul (h r0) (h a))) t z y x
        = prodData h t z y x := by
      apply prodData_congr
      intro p hp
      have : p ≠ r0 := fun e => ht (e ▸ hp)
      simp [updateHeap, this]
    rw [h0, hprod]
    simp only [arrMul, prodData, List.map_cons, List.prod_cons]
    ring

/-! ## The claims -/

/-- C1: the claim says `intersect(A,B)` of boxes that share no point on an
axis is the degenerate empty Region, never a region spanning the gap.  The
code disagrees: `__and__` hands `max` of lower bounds and `min` of upper
bounds to `from_bounds`, whose swap turns the reversed pair into the gap.
At A = shape (1,2,2) origin (0,0,0) and B = shape (1,2,2) origin (0,5,5) —
disjoint, since A's top 2 is at or below B's bottom 5 — the code returns the
non-empty box of shape (1,3,3) at origin (0,2,2), spanning the gap between
the inputs, contradicting `__and__`'s own docstring ("If there is no
intersection between the two bounding boxes then an empty bounding box is
returned"). -/
theorem c1_intersect_of_disjoint_spans_gap :
    (Box.and { shape := (1, 2, 2), origin := (0, 0, 0) }
        { shape := (1, 2, 2), origin := (0, 5, 5) })
      = { shape := (1, 3, 3), origin := (0, 2, 2) } ∧
    Box.isEmpty (Box.and { shape := (1, 2, 2), origin := (0, 0, 0) }
        { shape := (1, 2, 2), origin := (0, 5, 5) }) = false ∧
    ({ shape := (1, 2, 2), origin := (0, 0, 0) } : Box).top
      ≤ ({ shape := (1, 2, 2), origin := (0, 5, 5) } : Box).bottom := by
  refine ⟨by decide, by decide, by decide⟩

/-- C7: `contains(R, p)` is true iff every coordinate satisfies
`origin[d] ≤ p[d] ≤ origin[d] + shape[d]`, the upper comparison inclusive of
the boundary coordinate `origin + shape` (one coordinate wider than the
half-open ranges used by slicing): in particular the corner `origin + shape`
itself is contained.  2D points are promoted with depth coordinate 0. -/
theorem c7_contains_inclusive_upper_bound (b : Box) (p : Int × Int × Int) (q : Int × Int) :
    (b.contains p = true ↔
      (b.origin.1 ≤ p.1 ∧ p.1 ≤ b.origin.1 + b.shape.1)
        ∧ (b.origin.2.1 ≤ p.2.1 ∧ p.2.1 ≤ b.origin.2.1 + b.shape.2.1)
        ∧ (b.origin.2.2 ≤ p.2.2 ∧ p.2.2 ≤ b.origin.2.2 + b.shape.2.2)) ∧
    b.contains2 q = b.contains (0, q.1, q.2) ∧
    b.contains (b.origin.1 + b.shape.1, b.origin.2.1 + b.shape.2.1,
      b.origin.2.2 + b.shape.2.2) = true := by
  have hite : ∀ c1 c2 c3 : Bool,
      (if c1 = true then false else if c2 = true then false else if c3 = true then false
        else true) = (!c1 && !c2 && !c3) := by decide
  refine ⟨?_, rfl, ?_⟩
  · unfold Box.contains
    rw [hite]
    simp only [Bool.and_eq_true, Bool.not_eq_true', Bool.or_eq_false_iff,
      decide_eq_false_iff_not, not_lt]
    omega
  · unfold Box.contains
    rw [hite]
    simp only [Bool.and_eq_true, Bool.not_eq_true', Bool.or_eq_false_iff,
      decide_eq_false_iff_not, not_lt]
    omega

/-- C9: `from_bounds` never fails: it swaps a reversed axis pair, and the
result is the box whose origin is the componentwise minimum of each pair and
whose shape is the difference of the normalized bounds; consequently giving
any axis pair in either order yields the identical box. -/
theorem c9_from_bounds_normalizes (f b bo t l r : Int) :
    Box.from_bounds f b bo t l r =
      { shape := ((max f b - min f b).toNat, (max bo t - min bo t).toNat,
          (max l r - min l r).toNat),
        origin := (min f b, min bo t, min l r) } ∧
    Box.from_bounds f b bo t l r = Box.from_bounds b f bo t l r ∧
    Box.from_bounds f b bo t l r = Box.from_bounds f b t bo l r ∧
    Box.from_bounds f b bo t l r = Box.from_bounds f b bo t r l := by
  have key : ∀ u v bo' t' l' r' : Int, Box.from_bounds u v bo' t' l' r' =
      { shape := ((max u v - min u v).toNat, (max bo' t' - min bo' t').toNat,
          (max l' r' - min l' r').toNat),
        origin := (min u v, min bo' t', min l' r') } := by
    intro u v bo' t' l' r'
    unfold Box.from_bounds normPair
    split_ifs <;> simp_all [Box.mk.injEq, Prod.ext_iff] <;> omega
  refine ⟨key f b bo t l r, ?_, ?_, ?_⟩ <;>
    rw [key, key] <;> simp [Box.mk.injEq, Prod.ext_iff] <;> omega

/-- C10: invoking the copy protocol on any Box raises instead of returning a
copy: `__copy__` reads `self.offset`, which is not among the instance
attributes `__init__` assigns, so an `AttributeError` is raised (and even
past that, `offset` is not a keyword `__init__` accepts). -/
theorem c10_copy_protocol_always_raises (b : Box) :
    Box.copyProtocol b
      = Except.error ("AttributeError: Box object has no attribute offset") := by
  rfl

/-- C5: a factorized component's bbox is `spectrum.bbox @ morphology.bbox`,
the region intersection of the spectrum's and morphology's boxes; in
particular spectrum bbox shape (1,1,1) origin (0,5,5) with morphology bbox
shape (1,10,10) origin (0,0,0) gives bbox shape (1,1,1) origin (0,5,5). -/
theorem c5_factorized_bbox_is_intersection (frame : Frame) (sp : Spectrum)
    (mo : Morphology) :
    (FactorizedComponent.make frame sp mo).bbox = sp.bbox.and mo.bbox ∧
    (FactorizedComponent.make frame
        ⟨{ shape := (1, 1, 1), origin := (0, 5, 5) }⟩
        ⟨{ shape := (1, 10, 10), origin := (0, 0, 0) }⟩).bbox
      = { shape := (1, 1, 1), origin := (0, 5, 5) } := by
  exact ⟨rfl, rfl⟩

/-- C3: a fresh-buffer `extract_from` returns a buffer of the box's shape
(collapsed to 2D for a 2D source), raising nothing (the two selections of
its copy always have equal extents); each buffer position carries the source
value when its box position lies inside the source extent and zero
otherwise, so only the overlapping pixels are copied; in particular for a
box entirely outside the source extent every buffer entry is zero. -/
theorem c3_extract_partial_and_zero_overlap (b : Box) (img3 : Arr3) (img2 : Arr2) :
    (b.extract_from3 img3 none).shape = b.shape ∧
    (b.extract_from2 img2 none).shape = (b.shape.2.1, b.shape.2.2) ∧
    b.extractOk3 img3 ∧
    b.extractOk2 img2 ∧
    (∀ z y x : Nat, (b.extract_from3 img3 none).data z y x =
      if (z < b.shape.1 ∧ 0 ≤ b.origin.1 + z ∧ b.origin.1 + z < img3.shape.1)
          ∧ (y < b.shape.2.1 ∧ 0 ≤ b.origin.2.1 + y ∧ b.origin.2.1 + y < img3.shape.2.1)
          ∧ (x < b.shape.2.2 ∧ 0 ≤ b.origin.2.2 + x ∧ b.origin.2.2 + x < img3.shape.2.2) then
        img3.data (b.origin.1 + z).toNat (b.origin.2.1 + y).toNat (b.origin.2.2 + x).toNat
      else 0) ∧
    (∀ y x : Nat, (b.extract_from2 img2 none).data y x =
      if (y < b.shape.2.1 ∧ 0 ≤ b.origin.2.1 + y ∧ b.origin.2.1 + y < img2.shape.1)
          ∧ (x < b.shape.2.2 ∧ 0 ≤ b.origin.2.2 + x ∧ b.origin.2.2 + x < img2.shape.2) then
        img2.data (b.origin.2.1 + y).toNat (b.origin.2.2 + x).toNat
      else 0) ∧
    (b.outside3 img3.shape → ∀ z y x : Nat, (b.extract_from3 img3 none).data z y x = 0) := by
  refine ⟨extract_from3_shape b img3, extract_from2_shape b img2, extractOk3_holds b img3,
    extractOk2_holds b img2, fun z y x => extract_from3_data b img3 z y x,
    fun y x => extract_from2_data b img2 y x, ?_⟩
  intro hd z y x
  rw [extract_from3_data b img3 z y x]
  apply if_neg
  rintro ⟨⟨hz1, hz2, hz3⟩, ⟨hy1, hy2, hy3⟩, ⟨hx1, hx2, hx3⟩⟩
  unfold Box.outside3 at hd
  omega

/-- C2 counterexample: the claim says positions of the target outside the
overlap of the region's footprint with both arrays' extents are left
untouched by `insert_into`.  Take the region of shape (1,1,5) at the origin,
a source of shape (1,1,2) holding 5 everywhere and a target of shape (1,1,5)
holding 7 everywhere.  Position (0,0,3) lies outside the source's extent
(its x extent is 2), hence outside the overlap — yet after
`insert_into(R, T, extract_from(R, S))` the target holds 0 there, not its
original 7: the round trip wrote the extraction buffer's zero-fill over it. -/
theorem c2_roundtrip_overwrites_outside_source :
    ((Box.mk (1, 1, 5) (0, 0, 0)).insert_into3
        { shape := (1, 1, 5), data := fun _ _ _ => 7, dtype := 0 }
        ((Box.mk (1, 1, 5) (0, 0, 0)).extract_from3
          { shape := (1, 1, 2), data := fun _ _ _ => 5, dtype := 0 } none)).data 0 0 3 = 0 ∧
    ({ shape := (1, 1, 5), data := fun _ _ _ => 7, dtype := 0 } : Arr3).data 0 0 3 = 7 ∧
    ({ shape := (1, 1, 2), data := fun _ _ _ => 5, dtype := 0 } : Arr3).shape.2.2 ≤ 3 := by
  refine ⟨by decide, rfl, by decide⟩

/-- C2 amended: `insert_into(R, T, extract_from(R, S))` reproduces the values
of S inside R's footprint intersected with both extents; positions of T
outside R's footprint intersected with T's extent are left untouched, and
positions inside that footprint∩T but outside S's extent are set to zero
(the zero fill of the fresh extraction buffer); a fresh extraction buffer is
zero everywhere outside the overlap; both copies are extent-matched, so
neither operation raises. -/
theorem c2_roundtrip_amended (b : Box) (S T : Arr3) :
    (b.extract_from3 S none).shape = b.shape ∧
    (b.insert_into3 T (b.extract_from3 S none)).shape = T.shape ∧
    b.extractOk3 S ∧
    b.insertOk3 T (b.extract_from3 S none) ∧
    (∀ i j k : Nat, (b.extract_from3 S none).data i j k =
      if (i < b.shape.1 ∧ 0 ≤ b.origin.1 + i ∧ b.origin.1 + i < S.shape.1)
          ∧ (j < b.shape.2.1 ∧ 0 ≤ b.origin.2.1 + j ∧ b.origin.2.1 + j < S.shape.2.1)
          ∧ (k < b.shape.2.2 ∧ 0 ≤ b.origin.2.2 + k ∧ b.origin.2.2 + k < S.shape.2.2) then
        S.data (b.origin.1 + i).toNat (b.origin.2.1 + j).toNat (b.origin.2.2 + k).toNat
      else 0) ∧
    (∀ z y x : Nat, (b.insert_into3 T (b.extract_from3 S none)).data z y x =
      if (z < T.shape.1 ∧ b.origin.1 ≤ z ∧ (z : Int) < b.origin.1 + b.shape.1)
          ∧ (y < T.shape.2.1 ∧ b.origin.2.1 ≤ y ∧ (y : Int) < b.origin.2.1 + b.shape.2.1)
          ∧ (x < T.shape.2.2 ∧ b.origin.2.2 ≤ x ∧ (x : Int) < b.origin.2.2 + b.shape.2.2) then
        (if z < S.shape.1 ∧ y < S.shape.2.1 ∧ x < S.shape.2.2 then S.data z y x else 0)
      else T.data z y x) := by
  refine ⟨extract_from3_shape b S, insert_into3_shape b T _, extractOk3_holds b S,
    insertOk3_holds b T _ (extract_from3_shape b S),
    fun i j k => extract_from3_data b S i j k, ?_⟩
  intro z y x
  rw [insert_into3_data b T (b.extract_from3 S none) (extract_from3_shape b S) z y x]
  by_cases hout : (z < T.shape.1 ∧ b.origin.1 ≤ z ∧ (z : Int) < b.origin.1 + b.shape.1)
      ∧ (y < T.shape.2.1 ∧ b.origin.2.1 ≤ y ∧ (y : Int) < b.origin.2.1 + b.shape.2.1)
      ∧ (x < T.shape.2.2 ∧ b.origin.2.2 ≤ x ∧ (x : Int) < b.origin.2.2 + b.shape.2.2)
  · rw [if_pos hout, if_pos hout]
    obtain ⟨⟨hz1, hz2, hz3⟩, ⟨hy1, hy2, hy3⟩, ⟨hx1, hx2, hx3⟩⟩ := hout
    rw [extract_from3_data]
    by_cases hin : z < S.shape.1 ∧ y < S.shape.2.1 ∧ x < S.shape.2.2
    · rw [if_pos hin]
      obtain ⟨hs1, hs2, hs3⟩ := hin
      rw [if_pos (by refine ⟨⟨?_, ?_, ?_⟩, ⟨?_, ?_, ?_⟩, ⟨?_, ?_, ?_⟩⟩ <;> omega)]
      congr 1 <;> omega
    · rw [if_neg hin]
      apply if_neg
      rintro ⟨⟨hq1, hq2, hq3⟩, ⟨hr1, hr2, hr3⟩, ⟨hw1, hw2, hw3⟩⟩
      apply hin
      refine ⟨?_, ?_, ?_⟩ <;> omega
  · rw [if_neg hout, if_neg hout]

/-- C4: projecting a local model array shaped to the component's bbox into a
target frame F yields an array of F's full shape, with F's declared dtype
when present and the model's dtype otherwise; it holds the model's values on
the overlap of the bbox with F's region and is exactly zero at every pixel
outside the bbox.  The component's cached slice pair (recomputed by the
constructor/setters) is exactly `overlapped_slices` of its own frame's box
and its bbox — what `model_to_frame` uses when F equals the own frame — and
a fresh pair over F's box is used otherwise. -/
theorem c4_model_to_frame_projection (F0 F : Frame) (bb : Box) (model : Arr3)
    (hm : model.shape = bb.shape) :
    ((Component.make F0 bb).model_frame_slices, (Component.make F0 bb).model_slices)
        = overlapped_slices F0.bbox bb ∧
    ((Component.make F0 bb).model_to_frame (some F) model).shape = F.shape ∧
    ((Component.make F0 bb).model_to_frame (some F) model).dtype
        = F.dtype.getD model.dtype ∧
    (∀ z y x : Nat, ((Component.make F0 bb).model_to_frame (some F) model).data z y x =
      if (z < F.bbox.shape.1 ∧ bb.origin.1 ≤ F.bbox.origin.1 + z
            ∧ F.bbox.origin.1 + z < bb.origin.1 + bb.shape.1)
          ∧ (y < F.bbox.shape.2.1 ∧ bb.origin.2.1 ≤ F.bbox.origin.2.1 + y
            ∧ F.bbox.origin.2.1 + y < bb.origin.2.1 + bb.shape.2.1)
          ∧ (x < F.bbox.shape.2.2 ∧ bb.origin.2.2 ≤ F.bbox.origin.2.2 + x
            ∧ F.bbox.origin.2.2 + x < bb.origin.2.2 + bb.shape.2.2) then
        model.data ((F.bbox.origin.1 + z - bb.origin.1).toNat)
          ((F.bbox.origin.2.1 + y - bb.origin.2.1).toNat)
          ((F.bbox.origin.2.2 + x - bb.origin.2.2).toNat)
      else 0) := by
  refine ⟨rfl, ?_, ?_, fun z y x => model_to_frame_data F0 F bb model hm z y x⟩
  · rw [model_to_frame_make_some]
    rfl
  · rw [model_to_frame_make_some]
    rfl

/-- C4 witness: the projection claim instantiated at a concrete frame of
shape (1,4,4) with declared dtype 3 and a model of shape (1,2,2) placed at
origin (0,1,1). -/
theorem c4_model_to_frame_projection_witness :
    ((Component.make exampleFrame exampleBox).model_frame_slices,
        (Component.make exampleFrame exampleBox).model_slices)
        = overlapped_slices exampleFrame.bbox exampleBox ∧
    ((Component.make exampleFrame exampleBox).model_to_frame (some exampleFrame)
        exampleModel).shape = exampleFrame.shape ∧
    ((Component.make exampleFrame exampleBox).model_to_frame (some exampleFrame)
        exampleModel).dtype = exampleFrame.dtype.getD exampleModel.dtype ∧
    (∀ z y x : Nat, ((Component.make exampleFrame exampleBox).model_to_frame
        (some exampleFrame) exampleModel).data z y x =
      if (z < exampleFrame.bbox.shape.1
            ∧ exampleBox.origin.1 ≤ exampleFrame.bbox.origin.1 + z
            ∧ exampleFrame.bbox.origin.1 + z < exampleBox.origin.1 + exampleBox.shape.1)
          ∧ (y < exampleFrame.bbox.shape.2.1
            ∧ exampleBox.origin.2.1 ≤ exampleFrame.bbox.origin.2.1 + y
            ∧ exampleFrame.bbox.origin.2.1 + y
                < exampleBox.origin.2.1 + exampleBox.shape.2.1)
          ∧ (x < exampleFrame.bbox.shape.2.2
            ∧ exampleBox.origin.2.2 ≤ exampleFrame.bbox.origin.2.2 + x
            ∧ exampleFrame.bbox.origin.2.2 + x
                < exampleBox.origin.2.2 + exampleBox.shape.2.2) then
        exampleModel.data ((exampleFrame.bbox.origin.1 + z - exampleBox.origin.1).toNat)
          ((exampleFrame.bbox.origin.2.1 + y - exampleBox.origin.2.1).toNat)
          ((exampleFrame.bbox.origin.2.2 + x - exampleBox.origin.2.2).toNat)
      else 0) :=
  c4_model_to_frame_projection exampleFrame exampleFrame exampleBox exampleModel (by decide)

/-- C6 counterexample: the claim says rendering mutates no shared state, so
after a CombinedComponent's `get_model` every child's parameter array is
unchanged.  But with two cube children whose parameters (values 2 and 3)
live in slots 0 and 1, the "add" fold `model += model_` writes through the
first child's returned reference: afterwards slot 0 — the first child's
parameter array — holds 5, though it held 2 before the render. -/
theorem c6_combined_render_mutates_first_child :
    ((combinedGetModel [exampleCube 0, exampleCube 1] opAdd exampleHeap).map
        fun rh => (rh.2 0).data 0 0 0) = some 5 ∧
    (exampleHeap 0).data 0 0 0 = 2 := by
  refine ⟨by decide, by decide⟩

/-- C6 amended: leaf renders mutate nothing (`CubeComponent.get_model`
returns its parameter array and leaves the heap untouched), but
`CombinedComponent.get_model` folds in place into the array returned by its
first child and returns that same array; every heap slot other than the one
the first child returned is unchanged. -/
theorem c6_render_mutation_amended (c0 : CubeComponentM) (cs : List CubeComponentM)
    (op : String) (h : Heap) (r : Nat) (hr : r ≠ c0.pid) :
    (c0.get_model h).2 = h ∧
    ∃ res, combinedGetModel (c0 :: cs) op h = some res ∧ res.1 = c0.pid
      ∧ res.2 r = h r := by
  refine ⟨rfl, ?_⟩
  unfold combinedGetModel
  simp only [List.map_cons, CubeComponentM.get_model]
  by_cases h1 : op = opAdd
  · rw [if_pos h1]
    exact ⟨_, rfl, rfl, foldl_updateHeap_ne c0.pid _ _ h r hr⟩
  · rw [if_neg h1]
    by_cases h2 : op = opMultiply
    · rw [if_pos h2]
      exact ⟨_, rfl, rfl, foldl_updateHeap_ne c0.pid _ _ h r hr⟩
    · rw [if_neg h2]
      exact ⟨_, rfl, rfl, rfl⟩

/-- C6 witness: the amended statement at two concrete cube children, the
"add" operation and the two-slot example heap, observed at slot 1. -/
theorem c6_render_mutation_amended_witness :
    ((exampleCube 0).get_model exampleHeap).2 = exampleHeap ∧
    ∃ res, combinedGetModel (exampleCube 0 :: [exampleCube 1]) opAdd exampleHeap
        = some res ∧ res.1 = (exampleCube 0).pid ∧ res.2 1 = exampleHeap 1 :=
  c6_render_mutation_amended (exampleCube 0) [exampleCube 1] opAdd exampleHeap 1 (by decide)

/-- C8 counterexample: the claim's "fails iff" omits the empty component
list — `assert len(components)` makes construction fail although no child
violates any listed condition — and its fold description fails under
aliasing: listing the same cube child (slot 0, value 2) first and third
beside a second child (slot 1, value 3) constructs fine, but the in-place
"add" fold returns 10 (slot 0 is doubled by the final `+=` of its own
alias), not the elementwise sum 2+3+2 = 7 of the children's renders. -/
theorem c8_combined_empty_and_alias :
    combinedInit ([] : List CubeComponentM) opAdd true = none ∧
    (combinedInit [exampleCube 0, exampleCube 1, exampleCube 0] opAdd true).isSome
      = true ∧
    ((combinedGetModel [exampleCube 0, exampleCube 1, exampleCube 0] opAdd
        exampleHeap).map fun rh => (rh.2 rh.1).data 0 0 0) = some 10 ∧
    sumData exampleHeap [0, 1, 0] 0 0 0 = 7 := by
  refine ⟨rfl, by decide, by decide, by decide⟩

/-- C8 amended: construction fails iff the component list is empty, or a
child does not hold the identical frame reference of the first child, or
(with box checking enabled) a child's bbox differs from the first child's,
or the operation tag is neither "add" nor "multiply"; a successfully
constructed combined component's `get_model` raises no structural error,
and when no later child's returned array aliases the first child's, the
first child's array afterwards holds the elementwise sum ("add") or product
("multiply") of all children's renders — folded in place into that array. -/
theorem c8_combined_init_and_fold_amended (operation : String) (cb : Bool)
    (c0 : CubeComponentM) (cs : List CubeComponentM) (h : Heap) (z y x : Nat)
    (hal : c0.pid ∉ cs.map fun c => c.pid) :
    combinedInit [] operation cb = none ∧
    (combinedInit (c0 :: cs) operation cb = none ↔
      (∃ c ∈ c0 :: cs, c.frameRef ≠ c0.frameRef ∨ (cb = true ∧ c.bbox ≠ c0.bbox)) ∨
      (operation ≠ opAdd ∧ operation ≠ opMultiply)) ∧
    (∃ h', combinedGetModel (c0 :: cs) opAdd h = some (c0.pid, h') ∧
      (h' c0.pid).data z y x = sumData h (c0.pid :: cs.map fun c => c.pid) z y x) ∧
    (∃ h', combinedGetModel (c0 :: cs) opMultiply h = some (c0.pid, h') ∧
      (h' c0.pid).data z y x = prodData h (c0.pid :: cs.map fun c => c.pid) z y x) := by
  have hall_iff : ((c0 :: cs).all fun c => c.frameRef == c0.frameRef
        && (!cb || c.bbox == c0.bbox)) = true ↔
      ∀ c ∈ c0 :: cs, c.frameRef = c0.frameRef ∧ (cb = true → c.bbox = c0.bbox) := by
    simp only [List.all_eq_true, Bool.and_eq_true, beq_iff_eq, Bool.or_eq_true,
      Bool.not_eq_true']
    constructor
    · intro hh c hc
      obtain ⟨h1, h2⟩ := hh c hc
      refine ⟨h1, fun hcb => ?_⟩
      rcases h2 with h2 | h2
      · rw [hcb] at h2
        cases h2
      · exact h2
    · intro hh c hc
      obtain ⟨h1, h2⟩ := hh c hc
      refine ⟨h1, ?_⟩
      cases cb with
      | false => exact Or.inl rfl
      | true => exact Or.inr (h2 rfl)
  refine ⟨rfl, ?_, ?_, ?_⟩
  · show (if ((c0 :: cs).all fun c => c.frameRef == c0.frameRef
        && (!cb || c.bbox == c0.bbox)) = true then
          if operation = opAdd ∨ operation = opMultiply then
            some (c0.frameRef, c0.bbox, c0 :: cs, operation)
          else none
        else none) = none ↔ _
    by_cases hall : ((c0 :: cs).all fun c => c.frameRef == c0.frameRef
        && (!cb || c.bbox == c0.bbox)) = true
    · rw [if_pos hall]
      by_cases hop : operation = opAdd ∨ operation = opMultiply
      · rw [if_pos hop]
        have hL : (some (c0.frameRef, c0.bbox, c0 :: cs, operation)
            = (none : Option (Nat × Box × List CubeComponentM × String))) ↔ False := by
          simp
        rw [hL]
        constructor
        · intro hf
          exact hf.elim
        · rintro (⟨c, hc, hvio⟩ | ⟨hna, hnm⟩)
          · obtain ⟨h1, h2⟩ := (hall_iff.mp hall) c hc
            rcases hvio with hv | ⟨hcb, hv⟩
            · exact hv h1
            · exact hv (h2 hcb)
          · rcases hop with hop | hop
            · exact hna hop
            · exact hnm hop
      · rw [if_neg hop]
        push_neg at hop
        exact iff_of_true rfl (Or.inr hop)
    · rw [if_neg hall]
      have hex : ∃ c ∈ c0 :: cs,
          c.frameRef ≠ c0.frameRef ∨ (cb = true ∧ c.bbox ≠ c0.bbox) := by
        by_contra hno
        push_neg at hno
        apply hall
        rw [hall_iff]
        intro c hc
        obtain ⟨h1, h2⟩ := hno c hc
        exact ⟨h1, h2⟩
      exact iff_of_true rfl (Or.inl hex)
  · refine ⟨(cs.map fun c => c.pid).foldl
        (fun hh r => updateHeap hh c0.pid (arrAdd (hh c0.pid) (hh r))) h, ?_, ?_⟩
    · unfold combinedGetModel
      simp only [List.map_cons, CubeComponentM.get_model]
      rw [if_pos trivial]
    · rw [foldl_add_at_r0 c0.pid _ h hal z y x]
      simp [sumData]
  · refine ⟨(cs.map fun c => c.pid).foldl
        (fun hh r => updateHeap hh c0.pid (arrMul (hh c0.pid) (hh r))) h, ?_, ?_⟩
    · unfold combinedGetModel
      simp only [List.map_cons, CubeComponentM.get_model]
      rw [if_neg (by decide), if_pos trivial]
    · rw [foldl_mul_at_r0 c0.pid _ h hal z y x]
      simp [prodData]

/-- C8 witness: the amended statement at the "add" tag, box checking on, two
distinct concrete cube children and the example heap. -/
theorem c8_combined_init_and_fold_amended_witness :
    combinedInit [] opAdd true = none ∧
    (combinedInit (exampleCube 0 :: [exampleCube 1]) opAdd true = none ↔
      (∃ c ∈ exampleCube 0 :: [exampleCube 1], c.frameRef ≠ (exampleCube 0).frameRef
        ∨ (true = true ∧ c.bbox ≠ (exampleCube 0).bbox)) ∨
      (opAdd ≠ opAdd ∧ opAdd ≠ opMultiply)) ∧
    (∃ h', combinedGetModel (exampleCube 0 :: [exampleCube 1]) opAdd exampleHeap
        = some ((exampleCube 0).pid, h') ∧
      (h' (exampleCube 0).pid).data 0 0 0
        = sumData exampleHeap
            ((exampleCube 0).pid :: [exampleCube 1].map fun c => c.pid) 0 0 0) ∧
    (∃ h', combinedGetModel (exampleCube 0 :: [exampleCube 1]) opMultiply exampleHeap
        = some ((exampleCube 0).pid, h') ∧
      (h' (exampleCube 0).pid).data 0 0 0
        = prodData exampleHeap
            ((exampleCube 0).pid :: [exampleCube 1].map fun c => c.pid) 0 0 0) :=
  c8_combined_init_and_fold_amended opAdd true (exampleCube 0) [exampleCube 1]
    exampleHeap 0 0 0 (by decide)

end Scarlet
